import Mathlib

/- Verification of the resilience layer (circuit breaker, retry decorator,
rate limiter, service client) in `resilience.py` and of the calculation
endpoints of the budget, savings and insights services.

Modelling conventions:
* Python `Decimal` values are modelled as exact rationals; `Decimal.quantize`
  at scale `0.01` / `0.1` / `1` with `ROUND_HALF_UP` is modelled by
  `quantize2` / `quantize1` / `roundHalfUp`.  (`Decimal` context arithmetic
  carries 28 significant digits; on the exact inputs used here the two agree.)
* `time.time()` is modelled by an explicit rational-valued clock argument.
* An asynchronous wrapped operation is modelled by the outcome of each of its
  invocations; exceptions are the inductive `Exc`, and raising is `Except.error`.
-/

/-- Decimal ROUND_HALF_UP to an integer: nearest integer, ties away from zero. -/
def roundHalfUp (q : ℚ) : ℤ :=
  if 0 ≤ q then ⌊q + 1/2⌋ else -⌊-q + 1/2⌋

/-- Model of `x.quantize(Decimal("0.01"), rounding=ROUND_HALF_UP)`. -/
def quantize2 (q : ℚ) : ℚ := (roundHalfUp (q * 100) : ℚ) / 100

/-- Model of `x.quantize(Decimal("0.1"), rounding=ROUND_HALF_UP)`. -/
def quantize1 (q : ℚ) : ℚ := (roundHalfUp (q * 10) : ℚ) / 10

/-- Budget durations (`Duration` enum of the budget service). -/
inductive Duration where
  | daily
  | weekly
  | monthly
deriving DecidableEq

/-- Period divisor chosen in `calculate_budget`: 30 for daily, 4.33 for
weekly, 1 for monthly. -/
def Duration.divisor : Duration → ℚ
  | .daily => 30
  | .weekly => 433/100
  | .monthly => 1

/-- Amount validation of `BudgetRequest` (`Field(gt=0, le=1000000)` together
with the `validate_amount` validator, which re-checks the bounds and
quantizes the accepted amount to 2 decimals). -/
def validateBudgetRequest (amount : ℚ) : Except String ℚ :=
  if amount ≤ 0 then .error ("Amount must be greater than 0")
  else if 1000000 < amount then .error ("Amount cannot exceed 1,000,000")
  else .ok (quantize2 amount)

/-- Result record of `calculate_budget` (`BudgetBreakdown`), with the five
category amounts as named fields. -/
structure BudgetBreakdown where
  food : ℚ
  transportation : ℚ
  utilities : ℚ
  emergency_fund : ℚ
  discretionary : ℚ
  total_essential : ℚ
  total_savings : ℚ
deriving DecidableEq

/-- The `adjusted_amount` computed by `calculate_budget`. -/
def adjustedAmount (amount : ℚ) (duration : Duration) : ℚ :=
  quantize2 (amount / duration.divisor)

/-- Body of the `/calculate` endpoint of the budget service, applied to a
validated (already quantized) amount. -/
def calculate_budget (amount : ℚ) (duration : Duration) : BudgetBreakdown :=
  let adjusted_amount := adjustedAmount amount duration
  let food := quantize2 (adjusted_amount * (30/100))
  let transportation := quantize2 (adjusted_amount * (15/100))
  let utilities := quantize2 (adjusted_amount * (20/100))
  let emergency_fund := quantize2 (adjusted_amount * (20/100))
  let discretionary := quantize2 (adjusted_amount * (15/100))
  { food := food
    transportation := transportation
    utilities := utilities
    emergency_fund := emergency_fund
    discretionary := discretionary
    total_essential := quantize2 (food + transportation + utilities)
    total_savings := quantize2 (emergency_fund + discretionary) }

/-- The `/calculate` endpoint: request validation followed by the breakdown
computation; a validation failure is returned before any computation. -/
def budgetEndpoint (amount : ℚ) (duration : Duration) : Except String BudgetBreakdown :=
  (validateBudgetRequest amount).map (fun a => calculate_budget a duration)

/-- Result record of `calculate_savings_forecast` (`SavingsForecast`), with
the `what_if_scenarios` dict entries as named fields. -/
structure SavingsForecast where
  monthly_projections : List ℚ
  emergency_fund_progress : ℚ
  monthly_10pct_more : ℚ
  yearly_10pct_more : ℚ
  monthly_interest_gain : ℚ
  months_to_goal : ℚ
  months_with_increase : ℚ
  months_saved : ℚ
deriving DecidableEq

/-- Body of the `/forecast` endpoint of the savings service.  The final
`progress.quantize(Decimal("0.1"))` of the source is the identity here, since
`progress` is already a multiple of 0.1 at that point. -/
def calculate_savings_forecast (monthly_savings emergency_fund current_goal : ℚ) :
    SavingsForecast :=
  let projections := ([1, 2, 3, 6, 12] : List ℚ).map
    (fun months => quantize2 (monthly_savings * months))
  let progress :=
    if current_goal = 0 then 0
    else min (quantize1 (emergency_fund / current_goal * 100)) 100
  let monthly_savings_increase := quantize2 (monthly_savings * (1/10))
  let yearly_savings_increase := quantize2 (monthly_savings_increase * 12)
  let monthly_interest_rate := (4/100 : ℚ) / 12
  let monthly_with_interest := quantize2 (monthly_savings * (1 + monthly_interest_rate))
  let monthly_interest_gain := monthly_with_interest - monthly_savings
  let remaining_to_goal := max 0 (current_goal - emergency_fund)
  let months_to_goal :=
    if 0 < monthly_savings then (roundHalfUp (remaining_to_goal / monthly_savings) : ℚ)
    else 999
  let increased_monthly_savings := monthly_savings * (11/10)
  let months_to_goal_increased :=
    if 0 < increased_monthly_savings then
      (roundHalfUp (remaining_to_goal / increased_monthly_savings) : ℚ)
    else 999
  let time_saved :=
    if 0 < increased_monthly_savings then max 0 (months_to_goal - months_to_goal_increased)
    else 0
  { monthly_projections := projections
    emergency_fund_progress := progress
    monthly_10pct_more := monthly_savings_increase
    yearly_10pct_more := yearly_savings_increase
    monthly_interest_gain := monthly_interest_gain
    months_to_goal := months_to_goal
    months_with_increase := months_to_goal_increased
    months_saved := time_saved }

/-- Months-to-goal as the spec's words state it (for comparison with the
source): `ceil((goal - fund)/monthly_savings)` with the remaining amount
floored at 0, sentinel 999 when the savings rate is not positive. -/
def monthsToGoalClaimed (monthly_savings emergency_fund current_goal : ℚ) : ℚ :=
  if 0 < monthly_savings then
    (⌈max 0 (current_goal - emergency_fund) / monthly_savings⌉ : ℚ)
  else 999

/-- Health status of the insights service (`HealthStatus`). -/
inductive HealthStatus where
  | excellent
  | on_track
  | needs_improvement
deriving DecidableEq

/-- Score and status computed by the `/analyze` endpoint of the insights
service; `categories` are the values of the budget-breakdown category dict. -/
def analyze_budget (categories : List ℚ) (total_savings emergency_progress : ℚ) :
    ℚ × HealthStatus :=
  let total_budget := categories.sum
  let savings_rate :=
    if total_budget = 0 then 0
    else quantize1 (total_savings / total_budget * 100)
  let health_score :=
    quantize1 (savings_rate * (6/10) + emergency_progress * (4/10))
  let status :=
    if 80 ≤ health_score then HealthStatus.excellent
    else if 60 ≤ health_score then HealthStatus.on_track
    else HealthStatus.needs_improvement
  (health_score, status)

/-- Health score as the spec's words state it (for comparison with the
source): the savings rate entering the weighted sum is the raw ratio
`total_savings/total_budget*100`, not yet rounded to 1 decimal. -/
def healthScoreClaimed (categories : List ℚ) (total_savings emergency_progress : ℚ) : ℚ :=
  let total_budget := categories.sum
  let savings_rate :=
    if total_budget = 0 then (0 : ℚ) else total_savings / total_budget * 100
  quantize1 (savings_rate * (6/10) + emergency_progress * (4/10))

/-- Exceptions raised by the modelled code paths. -/
inductive Exc where
  | httpException (status : ℕ) (detail : String)
  | circuitBreakerError (msg : String)
  | generic (code : ℕ)
  | retryLogicError
deriving DecidableEq

/-- Loop of `retry_with_exponential_backoff`: `f i` is the outcome of the
i-th invocation of the wrapped function, `remaining` the attempts left.
Returns the final outcome together with the number of invocations made, or
`none` when the `for` loop runs zero iterations.  Back-off delays and jitter
only affect timing and are not modelled. -/
def retryGo {α : Type} (f : ℕ → Except Exc α) : ℕ → ℕ → Option (Except Exc α × ℕ)
  | _, 0 => none
  | attempt, remaining + 1 =>
    match f attempt with
    | .ok a => some (.ok a, 1)
    | .error e =>
      if remaining = 0 then some (.error e, 1)
      else
        match retryGo f (attempt + 1) remaining with
        | some (r, n) => some (r, n + 1)
        | none => none

/-- The decorator produced by `retry_with_exponential_backoff(config)`:
runs the loop for `max_attempts` attempts; if the loop body never runs the
trailing `raise Exception("Unexpected error in retry logic")` fires. -/
def retryWrapper {α : Type} (max_attempts : ℕ) (f : ℕ → Except Exc α) :
    Except Exc α × ℕ :=
  match retryGo f 0 max_attempts with
  | some (r, n) => (r, n)
  | none => (.error .retryLogicError, 0)

/-- Outcome of one raw HTTP exchange inside `_make_request`: either a
response (any status) or one of the `httpx` exception classes. -/
inductive NetResult where
  | response (status : ℕ) (body : String)
  | timeoutExc
  | connectExc
  | otherExc
deriving DecidableEq

/-- One attempt of `ServiceClient._make_request`'s body:
`response.raise_for_status()` raises for any non-2xx status, and every
failure is translated into an `HTTPException` whose status is 504 for a
timeout, 503 for a connection error, the upstream's own status for a non-2xx
response, and 500 otherwise. -/
def makeRequestAttempt (base_url : String) (net : NetResult) : Except Exc (ℕ × String) :=
  match net with
  | .response status body =>
    if 200 ≤ status ∧ status < 300 then .ok (status, body)
    else .error (.httpException status ("Service error: " ++ body))
  | .timeoutExc => .error (.httpException 504 ("Service timeout: " ++ base_url))
  | .connectExc => .error (.httpException 503 ("Service unavailable: " ++ base_url))
  | .otherExc => .error (.httpException 500 ("Unexpected error"))

/-- `ServiceClient._make_request`: the attempt body wrapped by
`@retry_with_exponential_backoff(RetryConfig())`, whose default
`max_attempts` is 3.  `net i` is the network outcome of the i-th attempt;
the pair's second component counts how often the HTTP operation ran. -/
def serviceClientMakeRequest (base_url : String) (net : ℕ → NetResult) :
    Except Exc (ℕ × String) × ℕ :=
  retryWrapper 3 (fun i => makeRequestAttempt base_url (net i))

/-- Circuit breaker states (the `state` string of `CircuitBreaker`). -/
inductive CBState where
  | closed
  | opened
  | halfOpen
deriving DecidableEq

/-- Mutable fields and configuration of a `CircuitBreaker` instance. -/
structure CircuitBreaker where
  failure_threshold : ℕ
  recovery_timeout : ℚ
  failure_count : ℕ
  last_failure_time : Option ℚ
  state : CBState
deriving DecidableEq

/-- A freshly constructed `CircuitBreaker(failure_threshold, recovery_timeout)`. -/
def CircuitBreaker.init (threshold : ℕ) (timeout : ℚ) : CircuitBreaker :=
  { failure_threshold := threshold
    recovery_timeout := timeout
    failure_count := 0
    last_failure_time := none
    state := .closed }

/-- Outcome of one invocation of the function wrapped by a breaker: success,
an exception matching `expected_exception`, or any other exception. -/
inductive CallOutcome (α : Type) where
  | ok (a : α)
  | expectedFail (e : Exc)
  | unexpectedFail (e : Exc)

/-- Result of one call through the breaker's wrapper: the value returned or
exception raised, whether the wrapped function was invoked, and the breaker
afterwards. -/
structure CBStep (α : Type) where
  result : Except Exc α
  invoked : Bool
  cb : CircuitBreaker

/-- The entry test `if self.last_failure_time and time.time() -
self.last_failure_time > self.recovery_timeout` (a float 0.0 timestamp is
falsy in Python, hence the `t ≠ 0` conjunct). -/
def cbRecoveryElapsed (cb : CircuitBreaker) (now : ℚ) : Bool :=
  match cb.last_failure_time with
  | some t => if t ≠ 0 ∧ cb.recovery_timeout < now - t then true else false
  | none => false

/-- One call through `CircuitBreaker.__call__`'s wrapper at time `now`,
where `outcome` is what the wrapped function would do if invoked. -/
def cbCall {α : Type} (cb : CircuitBreaker) (now : ℚ) (outcome : CallOutcome α) :
    CBStep α :=
  if cb.state = .opened ∧ cbRecoveryElapsed cb now = false then
    { result := .error (.circuitBreakerError ("Circuit breaker is open"))
      invoked := false
      cb := cb }
  else
    let cb1 := if cb.state = .opened then { cb with state := CBState.halfOpen } else cb
    match outcome with
    | .ok a =>
      if cb1.state = .halfOpen then
        { result := .ok a
          invoked := true
          cb := { cb1 with state := CBState.closed, failure_count := 0 } }
      else
        { result := .ok a, invoked := true, cb := cb1 }
    | .expectedFail e =>
      if cb1.failure_threshold ≤ cb1.failure_count + 1 then
        { result := .error e
          invoked := true
          cb := { cb1 with failure_count := cb1.failure_count + 1,
                           state := CBState.opened, last_failure_time := some now } }
      else
        { result := .error e
          invoked := true
          cb := { cb1 with failure_count := cb1.failure_count + 1 } }
    | .unexpectedFail e =>
      { result := .error e, invoked := true, cb := cb1 }

/-- A sequence of calls through the breaker, keeping only the final breaker. -/
def cbRun {α : Type} : CircuitBreaker → List (ℚ × CallOutcome α) → CircuitBreaker
  | cb, [] => cb
  | cb, (t, o) :: rest => cbRun (cbCall cb t o).cb rest

/-- Number of expected-exception failures in a call sequence. -/
def countExpectedFails {α : Type} : List (ℚ × CallOutcome α) → ℕ
  | [] => 0
  | (_, .expectedFail _) :: rest => countExpectedFails rest + 1
  | (_, .ok _) :: rest => countExpectedFails rest
  | (_, .unexpectedFail _) :: rest => countExpectedFails rest

/-- A `ServiceClient`: base address plus the breaker stored by `__init__`
(`self.circuit_breaker = circuit_breaker or CircuitBreaker()`). -/
structure ServiceClient where
  base_url : String
  circuit_breaker : CircuitBreaker

/-- A `get`/`post`/`put`/`delete` call: each verb method only awaits
`self._make_request(...)`; per the source the stored `circuit_breaker` is
not consulted anywhere on this path, so the request is exactly the retry
pipeline and the client (breaker included) is returned unchanged. -/
def ServiceClient.request (c : ServiceClient) (net : ℕ → NetResult) :
    (Except Exc (ℕ × String) × ℕ) × ServiceClient :=
  (serviceClientMakeRequest c.base_url net, c)

/-- `RateLimiter` state; `requests` maps a client id to its recorded
timestamps (absent keys are the empty list, matching the dict default). -/
structure RateLimiter where
  requests_per_window : ℕ
  window_seconds : ℚ
  requests : String → List ℚ

/-- A fresh `RateLimiter(requests_per_window, window_seconds)`. -/
def RateLimiter.fresh (n : ℕ) (w : ℚ) : RateLimiter :=
  { requests_per_window := n, window_seconds := w, requests := fun _ => [] }

/-- `RateLimiter.is_allowed(client_id)` at time `now`: drop timestamps aged
`window_seconds` or more, then admit and record the call iff the kept list
is shorter than `requests_per_window`. -/
def RateLimiter.isAllowed (rl : RateLimiter) (client_id : String) (now : ℚ) :
    Bool × RateLimiter :=
  let kept := (rl.requests client_id).filter (fun t => decide (now - t < rl.window_seconds))
  if kept.length < rl.requests_per_window then
    (true, { rl with requests := fun c => if c = client_id then kept ++ [now] else rl.requests c })
  else
    (false, { rl with requests := fun c => if c = client_id then kept else rl.requests c })

/-- A sequence of `is_allowed` calls by one client at the given times,
collecting the verdicts. -/
def rlRun (client_id : String) : RateLimiter → List ℚ → List Bool × RateLimiter
  | rl, [] => ([], rl)
  | rl, t :: rest =>
    let step := rl.isAllowed client_id t
    let tail := rlRun client_id step.2 rest
    (step.1 :: tail.1, tail.2)

theorem roundHalfUp_eq (q : ℚ) (z : ℤ) (h0 : 0 ≤ q)
    (hl : (z : ℚ) - 1/2 ≤ q) (hu : q < (z : ℚ) + 1/2) : roundHalfUp q = z := by
  rw [roundHalfUp, if_pos h0]
  exact Int.floor_eq_iff.mpr ⟨by linarith, by linarith⟩

theorem roundHalfUp_le {q : ℚ} (h : 0 ≤ q) : (roundHalfUp q : ℚ) ≤ q + 1/2 := by
  rw [roundHalfUp, if_pos h]
  exact Int.floor_le _

theorem lt_roundHalfUp {q : ℚ} (h : 0 ≤ q) : q - 1/2 < (roundHalfUp q : ℚ) := by
  rw [roundHalfUp, if_pos h]
  have := Int.lt_floor_add_one (q + 1/2)
  linarith

theorem roundHalfUp_nonneg {q : ℚ} (h : 0 ≤ q) : (0 : ℚ) ≤ (roundHalfUp q : ℚ) := by
  rw [roundHalfUp, if_pos h]
  have : (0 : ℤ) ≤ ⌊q + 1/2⌋ := Int.floor_nonneg.mpr (by linarith)
  exact_mod_cast this

theorem quantize2_eq (q : ℚ) (z : ℤ) (h0 : 0 ≤ q)
    (hl : (z : ℚ) - 1/2 ≤ q * 100) (hu : q * 100 < (z : ℚ) + 1/2) :
    quantize2 q = (z : ℚ) / 100 := by
  rw [quantize2, roundHalfUp_eq (q * 100) z (by linarith) hl hu]

theorem quantize1_eq (q : ℚ) (z : ℤ) (h0 : 0 ≤ q)
    (hl : (z : ℚ) - 1/2 ≤ q * 10) (hu : q * 10 < (z : ℚ) + 1/2) :
    quantize1 q = (z : ℚ) / 10 := by
  rw [quantize1, roundHalfUp_eq (q * 10) z (by linarith) hl hu]

theorem quantize2_nonneg {q : ℚ} (h : 0 ≤ q) : 0 ≤ quantize2 q := by
  have := roundHalfUp_nonneg (q := q * 100) (by linarith)
  rw [quantize2]
  positivity

theorem abs_quantize2_sub_le {q : ℚ} (h : 0 ≤ q) : |quantize2 q - q| ≤ 1/200 := by
  have h1 := roundHalfUp_le (q := q * 100) (by linarith)
  have h2 := lt_roundHalfUp (q := q * 100) (by linarith)
  rw [quantize2, abs_le]
  constructor <;> [linarith; linarith]

theorem validateBudgetRequest_ok {amount validated : ℚ}
    (h : validateBudgetRequest amount = .ok validated) :
    0 < amount ∧ amount ≤ 1000000 ∧ validated = quantize2 amount := by
  rw [validateBudgetRequest] at h
  by_cases h1 : amount ≤ 0
  · rw [if_pos h1] at h; cases h
  · by_cases h2 : 1000000 < amount
    · rw [if_neg h1, if_pos h2] at h; cases h
    · rw [if_neg h1, if_neg h2] at h
      exact ⟨lt_of_not_le h1, le_of_not_lt h2, (Except.ok.inj h).symm⟩

/-- C5: for every valid allocation input, the five category amounts sum to
within 5 cents of the adjusted amount, and every category amount is
non-negative. -/
theorem C5_category_sum_within_tolerance (amount : ℚ) (d : Duration) (validated : ℚ)
    (h : validateBudgetRequest amount = .ok validated) :
    |(calculate_budget validated d).food + (calculate_budget validated d).transportation
      + (calculate_budget validated d).utilities + (calculate_budget validated d).emergency_fund
      + (calculate_budget validated d).discretionary - adjustedAmount validated d| ≤ 5/100
    ∧ 0 ≤ (calculate_budget validated d).food
    ∧ 0 ≤ (calculate_budget validated d).transportation
    ∧ 0 ≤ (calculate_budget validated d).utilities
    ∧ 0 ≤ (calculate_budget validated d).emergency_fund
    ∧ 0 ≤ (calculate_budget validated d).discretionary := by
  obtain ⟨hpos, _, hval⟩ := validateBudgetRequest_ok h
  have hv : 0 ≤ validated := hval ▸ quantize2_nonneg (le_of_lt hpos)
  have hdiv : 0 < d.divisor := by cases d <;> norm_num [Duration.divisor]
  have hA : 0 ≤ adjustedAmount validated d := by
    rw [adjustedAmount]
    exact quantize2_nonneg (div_nonneg hv (le_of_lt hdiv))
  set A := adjustedAmount validated d with hAdef
  have n1 : (0:ℚ) ≤ A * (30/100) := by positivity
  have n2 : (0:ℚ) ≤ A * (15/100) := by positivity
  have n3 : (0:ℚ) ≤ A * (20/100) := by positivity
  have e1 := abs_le.mp (abs_quantize2_sub_le n1)
  have e2 := abs_le.mp (abs_quantize2_sub_le n2)
  have e3 := abs_le.mp (abs_quantize2_sub_le n3)
  simp only [calculate_budget, ← hAdef]
  refine ⟨abs_le.mpr ⟨by linarith, by linarith⟩,
    quantize2_nonneg n1, quantize2_nonneg n2, quantize2_nonneg n3,
    quantize2_nonneg n3, quantize2_nonneg n2⟩

theorem C5_witness :
    validateBudgetRequest 1000 = .ok 1000
    ∧ (|(calculate_budget 1000 .monthly).food + (calculate_budget 1000 .monthly).transportation
      + (calculate_budget 1000 .monthly).utilities
      + (calculate_budget 1000 .monthly).emergency_fund
      + (calculate_budget 1000 .monthly).discretionary
      - adjustedAmount 1000 .monthly| ≤ 5/100
    ∧ 0 ≤ (calculate_budget 1000 .monthly).food
    ∧ 0 ≤ (calculate_budget 1000 .monthly).transportation
    ∧ 0 ≤ (calculate_budget 1000 .monthly).utilities
    ∧ 0 ≤ (calculate_budget 1000 .monthly).emergency_fund
    ∧ 0 ≤ (calculate_budget 1000 .monthly).discretionary) := by
  have hv : validateBudgetRequest 1000 = .ok 1000 := by
    rw [validateBudgetRequest, if_neg (by norm_num), if_neg (by norm_num),
      quantize2_eq 1000 100000 (by norm_num) (by norm_num) (by norm_num)]
    norm_num
  exact ⟨hv, C5_category_sum_within_tolerance 1000 .monthly 1000 hv⟩

/-- C6: the budget allocator rejects out-of-range amounts with a validation
failure before any breakdown is computed: any amount that is not positive
and any amount above 1,000,000 yields an error from the endpoint. -/
theorem C6_out_of_range_rejected (amount : ℚ) (d : Duration)
    (h : amount ≤ 0 ∨ 1000000 < amount) :
    ∃ msg, budgetEndpoint amount d = .error msg := by
  rcases h with h | h
  · exact ⟨_, by rw [budgetEndpoint, validateBudgetRequest, if_pos h]; rfl⟩
  · refine ⟨("Amount cannot exceed 1,000,000"), ?_⟩
    rw [budgetEndpoint, validateBudgetRequest, if_neg (by linarith), if_pos h]
    rfl

theorem C6_witness :
    (∃ msg, budgetEndpoint 0 .monthly = .error msg)
    ∧ (∃ msg, budgetEndpoint 1000001 .monthly = .error msg) :=
  ⟨C6_out_of_range_rejected 0 .monthly (Or.inl (by norm_num)),
   C6_out_of_range_rejected 1000001 .monthly (Or.inr (by norm_num))⟩

/-- C4 as stated is false: the source rounds months-to-goal half-up
(`quantize(Decimal("1"), ROUND_HALF_UP)`), not up.  At monthly_savings 1000,
emergency_fund 0, goal 22400 the ratio is 22.4: the code answers 22 while
`ceil` gives 23. -/
theorem C4_counterexample :
    (calculate_savings_forecast 1000 0 22400).months_to_goal = 22
    ∧ monthsToGoalClaimed 1000 0 22400 = 23
    ∧ (calculate_savings_forecast 1000 0 22400).months_to_goal
        ≠ monthsToGoalClaimed 1000 0 22400 := by
  have h1 : (calculate_savings_forecast 1000 0 22400).months_to_goal = 22 := by
    show (if (0:ℚ) < 1000 then
        (roundHalfUp (max 0 ((22400:ℚ) - 0) / 1000) : ℚ) else 999) = 22
    rw [if_pos (by norm_num)]
    have : max (0:ℚ) ((22400:ℚ) - 0) / 1000 = 224/10 := by norm_num
    rw [this, roundHalfUp_eq (224/10) 22 (by norm_num) (by norm_num) (by norm_num)]
    norm_num
  have h2 : monthsToGoalClaimed 1000 0 22400 = 23 := by
    rw [monthsToGoalClaimed, if_pos (by norm_num)]
    have hmx : max (0:ℚ) ((22400:ℚ) - 0) / 1000 = 224/10 := by norm_num
    have hc : (⌈(224:ℚ)/10⌉ : ℤ) = 23 := Int.ceil_eq_iff.mpr ⟨by norm_num, by norm_num⟩
    rw [hmx, hc]
    norm_num
  exact ⟨h1, h2, by rw [h1, h2]; norm_num⟩

/-- C4 (amended): for every valid forecast input the months_to_goal scenario
value is the remaining amount over the monthly savings rounded half-up to
the nearest integer (ties up, not the ceiling), hence within 1/2 of the
exact ratio; at the spec's example (2000, 5000, 50000) it equals 23. -/
theorem C4_months_to_goal_rounds_half_up (ms ef g : ℚ)
    (h1 : 0 < ms) (h2 : 0 ≤ ef) (h3 : 0 < g) :
    (calculate_savings_forecast ms ef g).months_to_goal
      = (roundHalfUp (max 0 (g - ef) / ms) : ℚ)
    ∧ |(calculate_savings_forecast ms ef g).months_to_goal - max 0 (g - ef) / ms| ≤ 1/2
    ∧ (calculate_savings_forecast 2000 5000 50000).months_to_goal = 23 := by
  have hm : (calculate_savings_forecast ms ef g).months_to_goal
      = (roundHalfUp (max 0 (g - ef) / ms) : ℚ) := by
    show (if 0 < ms then (roundHalfUp (max 0 (g - ef) / ms) : ℚ) else 999) = _
    rw [if_pos h1]
  have hr : (0:ℚ) ≤ max 0 (g - ef) / ms :=
    div_nonneg (le_max_left 0 (g - ef)) (le_of_lt h1)
  refine ⟨hm, ?_, ?_⟩
  · have hl := roundHalfUp_le hr
    have hu := lt_roundHalfUp hr
    rw [hm, abs_le]
    exact ⟨by linarith, by linarith⟩
  · show (if (0:ℚ) < 2000 then
        (roundHalfUp (max 0 ((50000:ℚ) - 5000) / 2000) : ℚ) else 999) = 23
    rw [if_pos (by norm_num)]
    have : max (0:ℚ) ((50000:ℚ) - 5000) / 2000 = 45/2 := by norm_num
    rw [this, roundHalfUp_eq (45/2) 23 (by norm_num) (by norm_num) (by norm_num)]
    norm_num

theorem C4_witness :
    (0:ℚ) < 2000 ∧ (0:ℚ) ≤ 5000 ∧ (0:ℚ) < 50000
    ∧ (calculate_savings_forecast 2000 5000 50000).months_to_goal = 23 :=
  ⟨by norm_num, by norm_num, by norm_num,
   (C4_months_to_goal_rounds_half_up 2000 5000 50000 (by norm_num) (by norm_num)
     (by norm_num)).2.2⟩

/-- C9 as stated is false: the source rounds savings_rate to 1 decimal
before the weighted sum.  With categories summing to 1250, total_savings 126
and progress 0 the raw rate is 10.08: the code rounds it to 10.1 and scores
q1(10.1*0.6) = 6.1, while the claim's formula gives q1(10.08*0.6) = 6.0. -/
theorem C9_counterexample :
    (analyze_budget [1000, 250] 126 0).1 = 61/10
    ∧ healthScoreClaimed [1000, 250] 126 0 = 6
    ∧ (analyze_budget [1000, 250] 126 0).1 ≠ healthScoreClaimed [1000, 250] 126 0 := by
  have hsum : ([1000, 250] : List ℚ).sum = 1250 := by
    norm_num [List.sum_cons]
  have hrate : quantize1 ((126:ℚ) / 1250 * 100) = 101/10 := by
    have : (126:ℚ) / 1250 * 100 = 1008/100 := by norm_num
    rw [this, quantize1_eq (1008/100) 101 (by norm_num) (by norm_num) (by norm_num)]
    norm_num
  have h1 : (analyze_budget [1000, 250] 126 0).1 = 61/10 := by
    simp only [analyze_budget, hsum]
    rw [if_neg (by norm_num), hrate]
    have : (101:ℚ)/10 * (6/10) + 0 * (4/10) = 606/100 := by norm_num
    rw [this, quantize1_eq (606/100) 61 (by norm_num) (by norm_num) (by norm_num)]
    norm_num
  have h2 : healthScoreClaimed [1000, 250] 126 0 = 6 := by
    simp only [healthScoreClaimed, hsum]
    rw [if_neg (by norm_num)]
    have : (126:ℚ) / 1250 * 100 * (6/10) + 0 * (4/10) = 6048/1000 := by norm_num
    rw [this, quantize1_eq (6048/1000) 60 (by norm_num) (by norm_num) (by norm_num)]
    norm_num
  exact ⟨h1, h2, by rw [h1, h2]; norm_num⟩

theorem healthStatusChain_cases (s : ℚ) :
    ((if 80 ≤ s then HealthStatus.excellent
      else if 60 ≤ s then HealthStatus.on_track
      else HealthStatus.needs_improvement) = HealthStatus.excellent ↔ 80 ≤ s)
    ∧ ((if 80 ≤ s then HealthStatus.excellent
      else if 60 ≤ s then HealthStatus.on_track
      else HealthStatus.needs_improvement) = HealthStatus.on_track ↔ 60 ≤ s ∧ s < 80)
    ∧ ((if 80 ≤ s then HealthStatus.excellent
      else if 60 ≤ s then HealthStatus.on_track
      else HealthStatus.needs_improvement) = HealthStatus.needs_improvement ↔ s < 60) := by
  by_cases h80 : 80 ≤ s
  · rw [if_pos h80]
    exact ⟨by simp [h80], by simp [h80], by simp; linarith⟩
  · rw [if_neg h80]
    by_cases h60 : 60 ≤ s
    · rw [if_pos h60]
      exact ⟨by simp [h80], by simp [h60, lt_of_not_le h80],
        by simp [not_lt.mpr h60]⟩
    · rw [if_neg h60]
      exact ⟨by simp [h80], by simp [h60], by simp [lt_of_not_le h60]⟩

/-- C9 (amended): the insights scorer computes savings_rate as
total_savings/total_budget*100 rounded half-up to 1 decimal (0 when the
budget total is 0), the health score as savings_rate*0.6 + progress*0.4
rounded half-up to 1 decimal, and the status is excellent iff the score is
at least 80, on_track iff it is in [60, 80), needs_improvement iff it is
below 60. -/
theorem C9_health_score_and_status (categories : List ℚ) (ts progress : ℚ) :
    (analyze_budget categories ts progress).1
      = quantize1 ((if categories.sum = 0 then 0
          else quantize1 (ts / categories.sum * 100)) * (6/10) + progress * (4/10))
    ∧ ((analyze_budget categories ts progress).2 = HealthStatus.excellent
        ↔ 80 ≤ (analyze_budget categories ts progress).1)
    ∧ ((analyze_budget categories ts progress).2 = HealthStatus.on_track
        ↔ 60 ≤ (analyze_budget categories ts progress).1
          ∧ (analyze_budget categories ts progress).1 < 80)
    ∧ ((analyze_budget categories ts progress).2 = HealthStatus.needs_improvement
        ↔ (analyze_budget categories ts progress).1 < 60) := by
  have h2 : (analyze_budget categories ts progress).2
      = (if 80 ≤ (analyze_budget categories ts progress).1 then HealthStatus.excellent
         else if 60 ≤ (analyze_budget categories ts progress).1 then HealthStatus.on_track
         else HealthStatus.needs_improvement) := rfl
  rw [h2]
  exact ⟨rfl, (healthStatusChain_cases _).1, (healthStatusChain_cases _).2.1,
    (healthStatusChain_cases _).2.2⟩

theorem retryGo_ok {α : Type} (f : ℕ → Except Exc α) (a : α) :
    ∀ (k attempt remaining : ℕ), k < remaining →
    (∀ i, i < k → ∃ e, f (attempt + i) = .error e) →
    f (attempt + k) = .ok a →
    retryGo f attempt remaining = some (.ok a, k + 1) := by
  intro k
  induction k with
  | zero =>
    intro attempt remaining hk hfail hok
    obtain ⟨r, rfl⟩ : ∃ r, remaining = r + 1 :=
      ⟨remaining - 1, (Nat.succ_pred_eq_of_pos hk).symm⟩
    rw [retryGo]
    rw [Nat.add_zero] at hok
    rw [hok]
  | succ k ih =>
    intro attempt remaining hk hfail hok
    obtain ⟨r, rfl⟩ : ∃ r, remaining = r + 1 :=
      ⟨remaining - 1, (Nat.succ_pred_eq_of_pos (Nat.lt_of_le_of_lt (Nat.zero_le _) hk)).symm⟩
    obtain ⟨e0, he0⟩ := hfail 0 (Nat.succ_pos k)
    rw [Nat.add_zero] at he0
    have hr : k < r := Nat.lt_of_succ_lt_succ hk
    have hrec := ih (attempt + 1) r hr
      (fun i hi => by
        obtain ⟨e, he⟩ := hfail (i + 1) (Nat.succ_lt_succ hi)
        exact ⟨e, by rw [← he]; ring_nf⟩)
      (by rw [← hok]; ring_nf)
    rw [retryGo, he0]
    dsimp only
    rw [if_neg (Nat.pos_iff_ne_zero.mp (Nat.lt_of_le_of_lt (Nat.zero_le _) hr)), hrec]

theorem retryGo_allFail {α : Type} (f : ℕ → Except Exc α) (e : ℕ → Exc)
    (h : ∀ i, f i = .error (e i)) :
    ∀ (remaining attempt : ℕ), 0 < remaining →
    retryGo f attempt remaining = some (.error (e (attempt + remaining - 1)), remaining) := by
  intro remaining
  induction remaining with
  | zero => intro attempt h0; exact absurd h0 (by norm_num)
  | succ r ih =>
    intro attempt _
    rw [retryGo, h attempt]
    dsimp only
    by_cases hr : r = 0
    · subst hr
      rw [if_pos rfl]
      simp
    · rw [if_neg hr, ih (attempt + 1) (Nat.pos_iff_ne_zero.mpr hr)]
      have harith : attempt + 1 + r - 1 = attempt + (r + 1) - 1 := by omega
      rw [harith]

/-- C8: under the retry policy with max_attempts M, a wrapped function that
fails k < M times then succeeds returns the success and is invoked exactly
k+1 times, and a wrapped function that always fails is invoked exactly M
times with the last attempt's error finally raised. -/
theorem C8_retry_attempt_counts {α : Type} (M : ℕ) (f : ℕ → Except Exc α) :
    (∀ (k : ℕ) (a : α), k < M → (∀ i, i < k → ∃ e, f i = .error e) → f k = .ok a →
      retryWrapper M f = (.ok a, k + 1))
    ∧ (∀ (e : ℕ → Exc), (∀ i, f i = .error (e i)) → 0 < M →
      retryWrapper M f = (.error (e (M - 1)), M)) := by
  constructor
  · intro k a hk hfail hok
    rw [retryWrapper, retryGo_ok f a k 0 M hk
      (fun i hi => by simpa using hfail i hi) (by simpa using hok)]
  · intro e hfail hM
    rw [retryWrapper, retryGo_allFail f e hfail M 0 hM]
    simp

theorem C8_witness :
    retryWrapper 3 (fun i => if i = 0 then .error (.generic 5) else .ok (7:ℕ))
      = (.ok 7, 2)
    ∧ retryWrapper 3 (fun i => (.error (.generic i) : Except Exc ℕ))
      = (.error (.generic 2), 3) := by
  constructor
  · exact (C8_retry_attempt_counts 3 _).1 1 7 (by norm_num)
      (fun i hi => ⟨.generic 5, by interval_cases i; simp⟩) (by simp)
  · exact (C8_retry_attempt_counts 3 _).2 (fun i => .generic i) (fun i => rfl) (by norm_num)

/-- C1 as stated is false on the retried-once part: the retry decorator on
`_make_request` catches every `Exception`, including the `HTTPException`
built from a non-2xx response, so the HTTP operation is invoked 3 times, not
once.  Concretely, a downstream that always answers 404 is called 3 times. -/
theorem C1_counterexample :
    serviceClientMakeRequest ("svc") (fun _ => .response 404 ("nf"))
      = (.error (.httpException 404 ("Service error: nf")), 3)
    ∧ (3:ℕ) ≠ 1 := by
  constructor
  · rfl
  · norm_num

/-- C1 (amended): the typed failure for a non-2xx downstream response
carries the downstream's own status code (and body), but it is retried like
any other failure: the wrapped HTTP operation is invoked exactly 3 times
(the decorator's default max_attempts) before the failure propagates. -/
theorem C1_non2xx_status_propagated_after_retries (base_url body : String) (status : ℕ)
    (net : ℕ → NetResult) (hnet : ∀ i, net i = .response status body)
    (hs : ¬(200 ≤ status ∧ status < 300)) :
    serviceClientMakeRequest base_url net
      = (.error (.httpException status ("Service error: " ++ body)), 3) := by
  have hf : ∀ i, makeRequestAttempt base_url (net i)
      = .error (.httpException status ("Service error: " ++ body)) := by
    intro i
    rw [hnet i]
    show (if 200 ≤ status ∧ status < 300 then _ else _) = _
    rw [if_neg hs]
  rw [serviceClientMakeRequest, retryWrapper,
    retryGo_allFail (fun i => makeRequestAttempt base_url (net i))
      (fun _ => .httpException status ("Service error: " ++ body)) hf 3 0 (by norm_num)]

theorem C1_witness :
    serviceClientMakeRequest ("svc2") (fun _ => .response 418 ("teapot"))
      = (.error (.httpException 418 ("Service error: teapot")), 3) :=
  C1_non2xx_status_propagated_after_retries ("svc2") ("teapot") 418 _
    (fun _ => rfl) (by norm_num)

/-- C2 is violated by the source: the breaker stored by
`ServiceClient.__init__` is never applied to `_make_request`.  With the
breaker OPEN after a failure at time 100 and recovery timeout 60, recovery
has not elapsed at time 110, yet a request still invokes the HTTP operation
three times, fails with the HTTP 503 error rather than the distinguished
breaker-open error, and leaves the client's breaker untouched. -/
theorem C2_breaker_never_gates_requests :
    (cbRecoveryElapsed
      { failure_threshold := 5, recovery_timeout := 60, failure_count := 5,
        last_failure_time := some 100, state := CBState.opened } 110 = false)
    ∧ (ServiceClient.request
        { base_url := ("svc"),
          circuit_breaker :=
            { failure_threshold := 5, recovery_timeout := 60, failure_count := 5,
              last_failure_time := some 100, state := CBState.opened } }
        (fun _ => NetResult.connectExc)).1
      = (.error (.httpException 503 ("Service unavailable: svc")), 3)
    ∧ (ServiceClient.request
        { base_url := ("svc"),
          circuit_breaker :=
            { failure_threshold := 5, recovery_timeout := 60, failure_count := 5,
              last_failure_time := some 100, state := CBState.opened } }
        (fun _ => NetResult.connectExc)).2
      = { base_url := ("svc"),
          circuit_breaker :=
            { failure_threshold := 5, recovery_timeout := 60, failure_count := 5,
              last_failure_time := some 100, state := CBState.opened } } := by
  refine ⟨?_, rfl, rfl⟩
  show (if ((100:ℚ) ≠ 0 ∧ (60:ℚ) < 110 - 100) then true else false) = false
  rw [if_neg (by norm_num)]

theorem cbCall_closed_ok {α : Type} (cb : CircuitBreaker) (t : ℚ) (a : α)
    (hs : cb.state = CBState.closed) :
    (cbCall cb t (.ok a)).result = .ok a
    ∧ (cbCall cb t (.ok a)).invoked = true
    ∧ (cbCall cb t (.ok a)).cb = cb := by
  rw [cbCall, if_neg (by simp [hs])]
  simp [hs]

theorem cbCall_closed_expectedFail {α : Type} (cb : CircuitBreaker) (t : ℚ) (e : Exc)
    (hs : cb.state = CBState.closed) :
    (cbCall (α := α) cb t (.expectedFail e)).result = .error e
    ∧ (cbCall (α := α) cb t (.expectedFail e)).invoked = true
    ∧ (cbCall (α := α) cb t (.expectedFail e)).cb
      = (if cb.failure_threshold ≤ cb.failure_count + 1 then
          { cb with
            failure_count := cb.failure_count + 1
            state := CBState.opened
            last_failure_time := some t }
         else { cb with failure_count := cb.failure_count + 1 }) := by
  rw [cbCall, if_neg (by simp [hs])]
  by_cases hth : cb.failure_threshold ≤ cb.failure_count + 1 <;> simp [hs, hth]

theorem cbCall_closed_unexpectedFail {α : Type} (cb : CircuitBreaker) (t : ℚ) (e : Exc)
    (hs : cb.state = CBState.closed) :
    (cbCall (α := α) cb t (.unexpectedFail e)).result = .error e
    ∧ (cbCall (α := α) cb t (.unexpectedFail e)).invoked = true
    ∧ (cbCall (α := α) cb t (.unexpectedFail e)).cb = cb := by
  rw [cbCall, if_neg (by simp [hs])]
  simp [hs]

theorem cbCall_open_denied {α : Type} (cb : CircuitBreaker) (t : ℚ) (o : CallOutcome α)
    (hs : cb.state = CBState.opened) (he : cbRecoveryElapsed cb t = false) :
    (cbCall cb t o).invoked = false
    ∧ (cbCall cb t o).result = .error (.circuitBreakerError ("Circuit breaker is open"))
    ∧ (cbCall cb t o).cb = cb := by
  rw [cbCall, if_pos ⟨hs, he⟩]
  exact ⟨rfl, rfl, rfl⟩

theorem cbCall_open_elapsed_ok {α : Type} (cb : CircuitBreaker) (t : ℚ) (a : α)
    (hs : cb.state = CBState.opened) (he : cbRecoveryElapsed cb t = true) :
    (cbCall cb t (.ok a)).invoked = true
    ∧ (cbCall cb t (.ok a)).result = .ok a
    ∧ (cbCall cb t (.ok a)).cb.state = CBState.closed
    ∧ (cbCall cb t (.ok a)).cb.failure_count = 0 := by
  rw [cbCall, if_neg (by simp [he])]
  simp [hs]

theorem cbRun_closed_under_threshold {α : Type} :
    ∀ (l : List (ℚ × CallOutcome α)) (cb : CircuitBreaker),
    cb.state = CBState.closed →
    cb.failure_count + countExpectedFails l < cb.failure_threshold →
    (cbRun cb l).state = CBState.closed
    ∧ (cbRun cb l).failure_count = cb.failure_count + countExpectedFails l
    ∧ (cbRun cb l).last_failure_time = cb.last_failure_time
    ∧ (cbRun cb l).failure_threshold = cb.failure_threshold
    ∧ (cbRun cb l).recovery_timeout = cb.recovery_timeout := by
  intro l
  induction l with
  | nil =>
    intro cb hs _
    exact ⟨hs, by simp [cbRun, countExpectedFails], rfl, rfl, rfl⟩
  | cons p rest ih =>
    intro cb hs hlt
    obtain ⟨t, o⟩ := p
    cases o with
    | ok a =>
      rw [cbRun, (cbCall_closed_ok cb t a hs).2.2]
      have h := ih cb hs (by simpa [countExpectedFails] using hlt)
      simpa [countExpectedFails] using h
    | unexpectedFail e =>
      rw [cbRun, (cbCall_closed_unexpectedFail cb t e hs).2.2]
      have h := ih cb hs (by simpa [countExpectedFails] using hlt)
      simpa [countExpectedFails] using h
    | expectedFail e =>
      have hcnt : countExpectedFails ((t, CallOutcome.expectedFail e) :: rest)
          = countExpectedFails rest + 1 := rfl
      rw [hcnt] at hlt
      have hth : ¬ cb.failure_threshold ≤ cb.failure_count + 1 := by omega
      have hstep := (cbCall_closed_expectedFail (α := α) cb t e hs).2.2
      rw [if_neg hth] at hstep
      rw [cbRun, hstep]
      have h := ih { cb with failure_count := cb.failure_count + 1 }
        (by simpa using hs) (by simp only [ ]; omega)
      have hproj : ({ cb with failure_count := cb.failure_count + 1 }
          : CircuitBreaker).failure_count = cb.failure_count + 1 := rfl
      refine ⟨h.1, ?_, by simpa using h.2.2.1, by simpa using h.2.2.2.1,
        by simpa using h.2.2.2.2⟩
      rw [hcnt, h.2.1, hproj]
      omega

theorem cbRun_consecutive_failures_open {α : Type} (e : Exc) :
    ∀ (ts : List ℚ) (cb : CircuitBreaker) (ht : ts ≠ []),
    cb.state = CBState.closed →
    cb.failure_count + ts.length = cb.failure_threshold →
    (cbRun cb (ts.map (fun t =>
        ((t, CallOutcome.expectedFail e) : ℚ × CallOutcome α)))).state = CBState.opened
    ∧ (cbRun cb (ts.map (fun t =>
        ((t, CallOutcome.expectedFail e) : ℚ × CallOutcome α)))).last_failure_time
      = some (ts.getLast ht)
    ∧ (cbRun cb (ts.map (fun t =>
        ((t, CallOutcome.expectedFail e) : ℚ × CallOutcome α)))).failure_threshold
      = cb.failure_threshold
    ∧ (cbRun cb (ts.map (fun t =>
        ((t, CallOutcome.expectedFail e) : ℚ × CallOutcome α)))).recovery_timeout
      = cb.recovery_timeout := by
  intro ts
  induction ts with
  | nil => intro cb ht; exact absurd rfl ht
  | cons t rest ih =>
    intro cb _ hs hlen
    cases rest with
    | nil =>
      have hth : cb.failure_threshold ≤ cb.failure_count + 1 := by
        simp at hlen; omega
      have hstep := (cbCall_closed_expectedFail (α := α) cb t e hs).2.2
      rw [if_pos hth] at hstep
      simp only [List.map_cons, List.map_nil, cbRun, hstep]
      simp
    | cons t2 rest2 =>
      have hlt : ¬ cb.failure_threshold ≤ cb.failure_count + 1 := by
        simp at hlen; omega
      have hstep := (cbCall_closed_expectedFail (α := α) cb t e hs).2.2
      rw [if_neg hlt] at hstep
      have h := ih { cb with failure_count := cb.failure_count + 1 }
        (by simp) (by simpa using hs) (by simp at hlen ⊢; omega)
      simp only [List.map_cons, cbRun] at h ⊢
      rw [hstep]
      refine ⟨h.1, ?_, by simpa using h.2.2.1, by simpa using h.2.2.2⟩
      rw [h.2.1]
      congr 1

/-- C3: after `threshold` consecutive expected failures (at positive times)
a fresh breaker is OPEN with the last failure time recorded; any call within
the recovery timeout of that moment is rejected with the breaker-open error
without invoking the wrapped function and leaves the breaker unchanged; a
call strictly after the timeout is let through (HALF_OPEN) and, on success,
the breaker is CLOSED with failure_count reset to 0. -/
theorem C3_open_fail_fast_then_recover (α : Type) (threshold : ℕ) (timeout : ℚ)
    (ts : List ℚ) (e : Exc) (cb1 : CircuitBreaker) (ht : ts ≠ [])
    (hlen : ts.length = threshold) (hpos : ∀ t ∈ ts, 0 < t)
    (hcb : cb1 = cbRun (CircuitBreaker.init threshold timeout)
      (ts.map (fun t => ((t, CallOutcome.expectedFail e) : ℚ × CallOutcome α)))) :
    (cb1.state = CBState.opened ∧ cb1.last_failure_time = some (ts.getLast ht))
    ∧ (∀ (t : ℚ) (o : CallOutcome α), t - ts.getLast ht ≤ timeout →
        (cbCall cb1 t o).invoked = false
        ∧ (cbCall cb1 t o).result
            = .error (.circuitBreakerError ("Circuit breaker is open"))
        ∧ (cbCall cb1 t o).cb = cb1)
    ∧ (∀ (t : ℚ) (a : α), timeout < t - ts.getLast ht →
        (cbCall cb1 t (.ok a)).invoked = true
        ∧ (cbCall cb1 t (.ok a)).result = .ok a
        ∧ (cbCall cb1 t (.ok a)).cb.state = CBState.closed
        ∧ (cbCall cb1 t (.ok a)).cb.failure_count = 0) := by
  obtain ⟨hst, hlft, hthr, hrto⟩ :=
    cbRun_consecutive_failures_open (α := α) e ts (CircuitBreaker.init threshold timeout)
      ht rfl (by simpa [CircuitBreaker.init] using hlen)
  rw [← hcb] at hst hlft hthr hrto
  have hrto2 : cb1.recovery_timeout = timeout := by rw [hrto]; rfl
  have hL : 0 < ts.getLast ht := hpos _ (List.getLast_mem ht)
  refine ⟨⟨hst, hlft⟩, ?_, ?_⟩
  · intro t o hle
    have he : cbRecoveryElapsed cb1 t = false := by
      rw [cbRecoveryElapsed, hlft]
      dsimp only
      rw [if_neg]
      rintro ⟨-, hgt⟩
      rw [hrto2] at hgt
      linarith
    exact cbCall_open_denied cb1 t o hst he
  · intro t a hgt
    have he : cbRecoveryElapsed cb1 t = true := by
      rw [cbRecoveryElapsed, hlft]
      dsimp only
      rw [if_pos]
      exact ⟨ne_of_gt hL, by rw [hrto2]; linarith⟩
    exact cbCall_open_elapsed_ok cb1 t a hst he

theorem C3_witness :
    (cbRun (CircuitBreaker.init 2 60)
        (([1, 2] : List ℚ).map (fun t =>
          ((t, CallOutcome.expectedFail (Exc.generic 7)) : ℚ × CallOutcome ℕ)))).state
      = CBState.opened
    ∧ (cbCall (cbRun (CircuitBreaker.init 2 60)
        (([1, 2] : List ℚ).map (fun t =>
          ((t, CallOutcome.expectedFail (Exc.generic 7)) : ℚ × CallOutcome ℕ)))) 50
        (CallOutcome.ok 5)).invoked = false
    ∧ (cbCall (cbRun (CircuitBreaker.init 2 60)
        (([1, 2] : List ℚ).map (fun t =>
          ((t, CallOutcome.expectedFail (Exc.generic 7)) : ℚ × CallOutcome ℕ)))) 100
        (CallOutcome.ok 5)).cb.state = CBState.closed := by
  have h := C3_open_fail_fast_then_recover ℕ 2 60 [1, 2] (Exc.generic 7) _
    (by simp) rfl (by intro t htl; fin_cases htl <;> norm_num) rfl
  refine ⟨h.1.1, (h.2.1 50 (CallOutcome.ok 5) ?_).1, (h.2.2 100 5 ?_).2.2.1⟩
  · exact (by norm_num : (50:ℚ) - 2 ≤ 60)
  · exact (by norm_num : (60:ℚ) < 100 - 2)

/-- C10: a success while the breaker is CLOSED returns the value and leaves
the breaker, its failure_count included, unchanged (a reset happens only in
HALF_OPEN); consequently, starting from a fresh breaker, after any call
sequence containing threshold-1 expected failures interleaved with
successes (or non-expected failures) the breaker is still CLOSED with
failure_count equal to that number, and one more expected failure opens it. -/
theorem C10_success_in_closed_keeps_count (α : Type) :
    (∀ (cb : CircuitBreaker) (t : ℚ) (a : α), cb.state = CBState.closed →
      (cbCall cb t (.ok a)).result = .ok a
      ∧ (cbCall cb t (.ok a)).invoked = true
      ∧ (cbCall cb t (.ok a)).cb = cb)
    ∧ (∀ (threshold : ℕ) (timeout : ℚ) (l : List (ℚ × CallOutcome α)) (t : ℚ) (e : Exc),
        countExpectedFails l + 1 = threshold →
        (cbRun (CircuitBreaker.init threshold timeout) l).state = CBState.closed
        ∧ (cbRun (CircuitBreaker.init threshold timeout) l).failure_count
            = countExpectedFails l
        ∧ (cbCall (α := α) (cbRun (CircuitBreaker.init threshold timeout) l) t
            (CallOutcome.expectedFail e)).cb.state = CBState.opened) := by
  refine ⟨fun cb t a hs => cbCall_closed_ok cb t a hs, ?_⟩
  intro threshold timeout l t e hcnt
  have h := cbRun_closed_under_threshold l (CircuitBreaker.init threshold timeout)
    rfl (by simp only [CircuitBreaker.init]; omega)
  have hcount : (cbRun (CircuitBreaker.init threshold timeout) l).failure_count
      = countExpectedFails l := by
    rw [h.2.1]; simp [CircuitBreaker.init]
  have hthr : (cbRun (CircuitBreaker.init threshold timeout) l).failure_threshold
      = threshold := by
    rw [h.2.2.2.1]; rfl
  have hstep := (cbCall_closed_expectedFail (α := α)
    (cbRun (CircuitBreaker.init threshold timeout) l) t e h.1).2.2
  rw [if_pos (by rw [hcount, hthr]; omega)] at hstep
  exact ⟨h.1, hcount, by rw [hstep]⟩

theorem C10_witness :
    (cbCall { failure_threshold := 2
              recovery_timeout := 60
              failure_count := 1
              last_failure_time := none
              state := CBState.closed } 5 (CallOutcome.ok (0:ℕ))).cb
      = { failure_threshold := 2
          recovery_timeout := 60
          failure_count := 1
          last_failure_time := none
          state := CBState.closed }
    ∧ (cbCall (α := ℕ) (cbRun (CircuitBreaker.init 2 60)
          [((1:ℚ), CallOutcome.ok (0:ℕ)), (2, CallOutcome.expectedFail (Exc.generic 7)),
            (3, CallOutcome.ok 0)]) 4
        (CallOutcome.expectedFail (Exc.generic 8))).cb.state = CBState.opened :=
  ⟨((C10_success_in_closed_keeps_count ℕ).1 _ 5 0 rfl).2.2,
   ((C10_success_in_closed_keeps_count ℕ).2 2 60
      [((1:ℚ), CallOutcome.ok (0:ℕ)), (2, CallOutcome.expectedFail (Exc.generic 7)),
        (3, CallOutcome.ok 0)] 4 (Exc.generic 8) rfl).2.2⟩

theorem rlRun_all_allowed (client : String) :
    ∀ (rest : List ℚ) (rl : RateLimiter) (cur : List ℚ),
    rl.requests client = cur →
    cur.length + rest.length ≤ rl.requests_per_window →
    (∀ a, (a ∈ cur ∨ a ∈ rest) → ∀ b ∈ rest, b - a < rl.window_seconds) →
    (rlRun client rl rest).1 = List.replicate rest.length true
    ∧ (rlRun client rl rest).2.requests client = cur ++ rest
    ∧ (rlRun client rl rest).2.requests_per_window = rl.requests_per_window
    ∧ (rlRun client rl rest).2.window_seconds = rl.window_seconds := by
  intro rest
  induction rest with
  | nil =>
    intro rl cur hcur _ _
    exact ⟨rfl, by simpa using hcur, rfl, rfl⟩
  | cons t rest2 ih =>
    intro rl cur hcur hlen hwin
    have hkeep : (rl.requests client).filter
        (fun a => decide (t - a < rl.window_seconds)) = cur := by
      rw [hcur]
      apply List.filter_eq_self.mpr
      intro a ha
      exact decide_eq_true (hwin a (Or.inl ha) t (List.mem_cons_self _ _))
    have hallow : cur.length < rl.requests_per_window := by
      simp at hlen; omega
    have hstep : rl.isAllowed client t
        = (true, { rl with requests := fun c =>
            if c = client then cur ++ [t] else rl.requests c }) := by
      simp only [RateLimiter.isAllowed, hkeep]
      rw [if_pos hallow]
    have h := ih { rl with requests := fun c =>
        if c = client then cur ++ [t] else rl.requests c } (cur ++ [t])
      (by simp)
      (by simp at hlen ⊢; omega)
      (by
        intro a ha b hb
        have hb2 : b ∈ t :: rest2 := List.mem_cons_of_mem _ hb
        rcases ha with ha | ha
        · rcases List.mem_append.mp ha with ha2 | ha2
          · exact hwin a (Or.inl ha2) b hb2
          · rw [List.mem_singleton.mp ha2]
            exact hwin t (Or.inr (List.mem_cons_self _ _)) b hb2
        · exact hwin a (Or.inr (List.mem_cons_of_mem _ ha)) b hb2)
    rw [rlRun, hstep]
    refine ⟨?_, ?_, by simpa using h.2.2.1, by simpa using h.2.2.2⟩
    · simp only [List.length_cons, List.replicate_succ]
      exact congrArg (List.cons true) h.1
    · rw [h.2.1]
      simp

/-- C7: from a fresh rate limiter admitting N calls per W-second window, a
single client's N calls at times all within one window are all allowed (and
all recorded); a further call still within W of every recorded call is
denied; a call made at least W after every recorded call is allowed again. -/
theorem C7_rate_limiter_window (N : ℕ) (W : ℚ) (client : String) (ts : List ℚ)
    (hN : 0 < N) (hlen : ts.length = N)
    (hwin : ∀ a ∈ ts, ∀ b ∈ ts, b - a < W) :
    (rlRun client (RateLimiter.fresh N W) ts).1 = List.replicate N true
    ∧ (rlRun client (RateLimiter.fresh N W) ts).2.requests client = ts
    ∧ (∀ t : ℚ, (∀ a ∈ ts, t - a < W) →
        ((rlRun client (RateLimiter.fresh N W) ts).2.isAllowed client t).1 = false)
    ∧ (∀ t : ℚ, (∀ a ∈ ts, W ≤ t - a) →
        ((rlRun client (RateLimiter.fresh N W) ts).2.isAllowed client t).1 = true) := by
  have h := rlRun_all_allowed client ts (RateLimiter.fresh N W) [] rfl
    (by simp [RateLimiter.fresh, hlen])
    (by
      intro a ha b hb
      rcases ha with ha | ha
      · simp at ha
      · exact hwin a ha b hb)
  have hreq : (rlRun client (RateLimiter.fresh N W) ts).2.requests client = ts := by
    simpa using h.2.1
  have hN2 : (rlRun client (RateLimiter.fresh N W) ts).2.requests_per_window = N := by
    simpa [RateLimiter.fresh] using h.2.2.1
  have hW2 : (rlRun client (RateLimiter.fresh N W) ts).2.window_seconds = W := by
    simpa [RateLimiter.fresh] using h.2.2.2
  refine ⟨by rw [h.1, hlen], hreq, ?_, ?_⟩
  · intro t hlt
    have hkeep : ((rlRun client (RateLimiter.fresh N W) ts).2.requests client).filter
        (fun a => decide
          (t - a < (rlRun client (RateLimiter.fresh N W) ts).2.window_seconds)) = ts := by
      rw [hreq, hW2]
      apply List.filter_eq_self.mpr
      intro a ha
      exact decide_eq_true (hlt a ha)
    simp only [RateLimiter.isAllowed, hkeep]
    rw [if_neg]
    rw [hlen, hN2]
    omega
  · intro t hge
    have hkeep : ((rlRun client (RateLimiter.fresh N W) ts).2.requests client).filter
        (fun a => decide
          (t - a < (rlRun client (RateLimiter.fresh N W) ts).2.window_seconds)) = [] := by
      rw [hreq, hW2]
      apply List.filter_eq_nil_iff.mpr
      intro a ha
      simpa using not_lt.mpr (hge a ha)
    simp only [RateLimiter.isAllowed, hkeep]
    rw [if_pos]
    rw [hN2]
    simpa using hN

theorem C7_witness :
    (rlRun ("c") (RateLimiter.fresh 2 10) [0, 1]).1 = List.replicate 2 true
    ∧ ((rlRun ("c") (RateLimiter.fresh 2 10) [0, 1]).2.isAllowed ("c") 5).1 = false
    ∧ ((rlRun ("c") (RateLimiter.fresh 2 10) [0, 1]).2.isAllowed ("c") 11).1 = true := by
  have h := C7_rate_limiter_window 2 10 ("c") [0, 1] (by norm_num) rfl
    (by intro a ha b hb; fin_cases ha <;> fin_cases hb <;> norm_num)
  exact ⟨h.1, h.2.2.1 5 (by intro a ha; fin_cases ha <;> norm_num),
    h.2.2.2 11 (by intro a ha; fin_cases ha <;> norm_num)⟩
